import Mathlib

/-!
# Verification of the SOLID/architecture lint rule pack

Shallow embedding of the analysis engine of the repository (an ESLint-style
rule pack: LSP, ISP, OCP, DIP, clean-architecture and repository-architecture
detectors) and proofs about the frozen claims C1 .. C10.

Modelling conventions, shared by all sections:
* Each detector's context.report call sites become constructors of a
  per-detector diagnostic inductive carrying the interpolated data, so that
  "how many diagnostics of a given kind" is a question about a Lean list.
* The external minimatch glob library is not part of the repository; glob
  matching is therefore a function parameter mm : String -> String -> Bool
  wherever the source calls minimatch(path, pattern).
* JavaScript Map objects keyed by strings become association lists
  List (String × _); Map.get is first-match lookup and JS Map key
  uniqueness becomes a Nodup hypothesis where a proof needs it.
* JS truthiness of options.x || default on a numeric option is translated
  explicitly (0 is falsy).
-/

namespace LintModel

/-- Executable "pat is a prefix of s" on character lists. -/
def charsPrefix : List Char → List Char → Bool
  | [], _ => true
  | _ :: _, [] => false
  | p :: ps, c :: cs => p == c && charsPrefix ps cs

/-- Executable "pat occurs contiguously in s" on character lists. -/
def charsInfix (pat : List Char) : List Char → Bool
  | [] => charsPrefix pat []
  | c :: cs => charsPrefix pat (c :: cs) || charsInfix pat cs

/-- JS String.prototype.includes: includesSub s pat is true iff pat
occurs as a contiguous substring of s. -/
def includesSub (s pat : String) : Bool :=
  charsInfix pat.toList s.toList

/-- JS String.prototype.startsWith. -/
def jsStartsWith (s pat : String) : Bool :=
  charsPrefix pat.toList s.toList

/-- JS String.prototype.endsWith. -/
def jsEndsWith (s pat : String) : Bool :=
  charsPrefix pat.toList.reverse s.toList.reverse

/-- First-match lookup in an association list, the behaviour of Map.get
for the JS Maps of the rule pack (keys are unique in a real Map). -/
def alookup (k : String) : List (String × α) → Option α
  | [] => none
  | (k', v) :: rest => if k' = k then some v else alookup k rest

section CleanArchitecture

/-!
## clean-architecture.js

getLayer and checkDependencyRule from src/lib/rules/clean-architecture.js
(lines 136-183).  A layer configuration entry is {patterns, level} and the
layers object is iterated in insertion order, so it is a list here.
-/

/-- One entry of the layers option object of clean-architecture.js:
a layer name with its glob patterns and its level. -/
structure LayerConfig where
  name : String
  patterns : List String
  level : Int
deriving Repr, DecidableEq

/-- The result shape { name: layerName, level: layerConfig.level }
returned by getLayer. -/
structure Layer where
  name : String
  level : Int
deriving Repr, DecidableEq

/-- getLayer(filePath) (clean-architecture.js lines 136-143): walk the
layer entries in declared order and return the first whose pattern list has
a minimatch match for the path; null (here none) when nothing matches.
mm path pattern stands for minimatch(filePath, pattern). -/
def getLayer (mm : String → String → Bool) (layers : List LayerConfig)
    (filePath : String) : Option Layer :=
  match layers with
  | [] => none
  | lc :: rest =>
    if lc.patterns.any (fun pattern => mm filePath pattern) then
      some ⟨lc.name, lc.level⟩
    else getLayer mm rest filePath

/-- The default layers option of clean-architecture.js (lines 98-103). -/
def defaultLayers : List LayerConfig :=
  [ ⟨"entities", ["**/entities/**", "**/domain/**"], 1⟩,
    ⟨"useCases", ["**/use-cases/**", "**/application/**", "**/services/**"], 2⟩,
    ⟨"adapters", ["**/adapters/**", "**/controllers/**", "**/presenters/**", "**/gateways/**"], 3⟩,
    ⟨"frameworks", ["**/frameworks/**", "**/infrastructure/**", "**/external/**"], 4⟩ ]

/-- The violation object built by checkDependencyRule (lines 170-179):
message id dependencyRuleViolation with its interpolation data. -/
structure DependencyRuleViolation where
  innerLayer : String
  innerLevel : Int
  outerLayer : String
  outerLevel : Int
deriving Repr, DecidableEq

/-- checkDependencyRule(currentFile, importPath) (clean-architecture.js
lines 161-183): classify both paths; if either is unclassified return null;
report a dependency-rule violation exactly when the current file's level is
strictly below the import's level. -/
def checkDependencyRule (mm : String → String → Bool) (layers : List LayerConfig)
    (currentFile importPath : String) : Option DependencyRuleViolation :=
  match getLayer mm layers currentFile, getLayer mm layers importPath with
  | some currentLayer, some importLayer =>
    if currentLayer.level < importLayer.level then
      some ⟨currentLayer.name, currentLayer.level, importLayer.name, importLayer.level⟩
    else none
  | _, _ => none

end CleanArchitecture

section CleanArchitectureTheorems

/-- Claim C5: with the default layer table, a file classified entities
(level 1) importing a target classified frameworks (level 4) always yields
a dependency-rule violation from checkDependencyRule, and the reversed
direction of import never yields one. -/
theorem checkDependencyRule_entities_to_frameworks
    (mm : String → String → Bool) (f g : String)
    (hf : getLayer mm defaultLayers f = some ⟨"entities", 1⟩)
    (hg : getLayer mm defaultLayers g = some ⟨"frameworks", 4⟩) :
    checkDependencyRule mm defaultLayers f g =
      some ⟨"entities", 1, "frameworks", 4⟩ ∧
    checkDependencyRule mm defaultLayers g f = none := by
  refine ⟨?_, ?_⟩ <;> simp [checkDependencyRule, hf, hg]

/-- A concrete glob matcher for witnesses: path "E" matches only the
entities pattern, path "F" matches only the frameworks pattern. -/
def witnessMM : String → String → Bool := fun p pat =>
  (p == "E" && pat == "**/entities/**") || (p == "F" && pat == "**/frameworks/**")

/-- Witness for C5 at the concrete matcher witnessMM and paths "E", "F". -/
theorem checkDependencyRule_entities_to_frameworks_witness :
    checkDependencyRule witnessMM defaultLayers "E" "F" =
      some ⟨"entities", 1, "frameworks", 4⟩ ∧
    checkDependencyRule witnessMM defaultLayers "F" "E" = none :=
  checkDependencyRule_entities_to_frameworks witnessMM "E" "F" (by decide) (by decide)

/-- Claim C7: getLayer is deterministic and idempotent.  Over any sequence
of calls with the configuration (mm, layers) held fixed, two calls on the
same path return the same result (the same layer, or none). -/
theorem getLayer_deterministic
    (mm : String → String → Bool) (layers : List LayerConfig)
    (paths : List String) (i j : Nat)
    (h : paths.get? i = paths.get? j) :
    (paths.map (getLayer mm layers)).get? i =
      (paths.map (getLayer mm layers)).get? j := by
  have h' : paths[i]? = paths[j]? := by
    simpa [List.get?_eq_getElem?] using h
  simp [List.get?_eq_getElem?, List.getElem?_map, h']

/-- Witness for C7: a concrete call sequence repeating the path "E" in
positions 0 and 2 returns identical classifications there. -/
theorem getLayer_deterministic_witness :
    (["E", "F", "E"].map (getLayer witnessMM defaultLayers)).get? 0 =
      (["E", "F", "E"].map (getLayer witnessMM defaultLayers)).get? 2 :=
  getLayer_deterministic witnessMM defaultLayers ["E", "F", "E"] 0 2 (by decide)

end CleanArchitectureTheorems

section ISP

/-!
## isp-integration-segrigation.js

The ISP rule (src/lib/rules/isp-integration-segrigation.js).  The mutable
classAnalysis map becomes an association list List (String × ISPClassInfo)
holding the state at Program:exit; inheritanceChain becomes
List (String × String) (child ↦ parent).

isInheritedMethod (lines 230-245) is a while loop whose only exits are
finding the method on an ancestor or reaching a class with no recorded
parent; it keeps **no visited set**.  It is embedded with explicit fuel:
none means the loop has not returned within fuel iterations.
-/

/-- JS options.x || d for a numeric option x with default d:
undefined and 0 are falsy, so both fall back to the default. -/
def jsNumOr (v : Option Nat) (d : Nat) : Nat :=
  match v with
  | none => d
  | some n => if n = 0 then d else n

/-- isInheritedMethod(className, methodName) (isp rule lines 230-245),
with classMethods giving for each recorded class the names of its recorded
methods.  One unit of fuel is one iteration of the source's while loop;
none means the loop is still running after fuel iterations (the loop has
no other way to stop). -/
def isInheritedMethodFuel (inheritanceChain : List (String × String))
    (classMethods : List (String × List String)) :
    Nat → String → String → Option Bool
  | 0, _, _ => none
  | fuel + 1, currentClass, methodName =>
    match alookup currentClass inheritanceChain with
    | none => some false
    | some superClass =>
      match alookup superClass classMethods with
      | some ms =>
        if ms.contains methodName then some true
        else isInheritedMethodFuel inheritanceChain classMethods fuel superClass methodName
      | none => isInheritedMethodFuel inheritanceChain classMethods fuel superClass methodName

/-- isInterfaceLikeNaming(name) (isp rule lines 262-269). -/
def isInterfaceLikeNaming (name : String) : Bool :=
  (match name.toList with
   | 'I' :: c :: _ => c.isUpper
   | _ => false) ||
  jsEndsWith name "Interface" || jsEndsWith name "Contract" ||
  jsEndsWith name "Protocol" || jsEndsWith name "Spec"

/-- The keyword table of categorizeMethod (isp rule lines 360-371),
in declaration order (first match wins). -/
def ispCategories : List (String × List String) :=
  [ ("data", ["get", "set", "read", "write", "load", "save", "fetch", "store",
      "find", "select", "insert", "update", "delete"]),
    ("validation", ["validate", "verify", "check", "confirm", "ensure",
      "assert", "test", "is", "has", "can"]),
    ("transformation", ["transform", "convert", "parse", "format", "serialize",
      "deserialize", "map", "filter", "reduce"]),
    ("communication", ["send", "receive", "notify", "emit", "broadcast",
      "publish", "subscribe", "connect", "disconnect"]),
    ("calculation", ["calculate", "compute", "process", "analyze", "sum",
      "count", "average", "min", "max"]),
    ("ui", ["render", "display", "show", "hide", "update", "refresh", "draw",
      "paint", "animate"]),
    ("lifecycle", ["init", "start", "stop", "destroy", "create", "delete",
      "dispose", "cleanup", "setup", "teardown"]),
    ("utility", ["log", "debug", "trace", "measure", "monitor", "profile",
      "benchmark", "clone", "copy"]),
    ("security", ["authenticate", "authorize", "encrypt", "decrypt", "hash",
      "sign", "verify", "sanitize"]),
    ("navigation", ["navigate", "redirect", "route", "go", "back", "forward",
      "next", "previous"]) ]

/-- JS String.prototype.toLowerCase on ASCII names. -/
def toLowerStr (s : String) : String :=
  String.mk (s.toList.map Char.toLower)

/-- categorizeMethod(methodName) (isp rule lines 358-382): lowercase the
name, scan the category table in order, first category one of whose keywords
occurs in the name wins; otherwise "general". -/
def categorizeMethod (methodName : String) : String :=
  let lowerName := toLowerStr methodName
  match ispCategories.find? (fun c => c.2.any (fun keyword => includesSub lowerName keyword)) with
  | some c => c.1
  | none => "general"

/-- A class body member as seen by analyzeClass (isp rule lines 124-133):
a MethodDefinition or an arrow-function PropertyDefinition with an
optional key name, its parameter count, and the value
calculateMethodComplexity computes from its function body (carried as a
number here; every claim about this rule quantifies over it), or any other
member kind.  -/
inductive ClassMember where
  | methodDef (name : Option String) (params : Nat) (complexity : Nat)
  | arrowProp (name : Option String) (params : Nat) (complexity : Nat)
  | otherMember
deriving Repr, DecidableEq

/-- The method record built by extractMethodInfo (isp rule lines 247-260). -/
structure ISPMethodInfo where
  name : String
  category : String
  isUsed : Bool
  usageCount : Nat
  parameters : Nat
  complexity : Nat
  methodType : String
deriving Repr, DecidableEq

/-- The class record stored into classAnalysis by analyzeClass
(isp rule lines 158-167). -/
structure ISPClassInfo where
  methods : List ISPMethodInfo
  totalMethods : Nat
  isInterface : Bool
  isTypeScriptInterface : Bool
  superClass : Option String
deriving Repr, DecidableEq

/-- The member cases analyzeClass turns into a method record: a
MethodDefinition with a key name, or an arrow-function property with a
key name (isp rule lines 127-133). -/
def extractISPMember : ClassMember → Option (String × Nat × Nat × String)
  | .methodDef (some n) p c => some (n, p, c, "method")
  | .arrowProp (some n) p c => some (n, p, c, "arrow")
  | _ => none

/-- The number of class members analyzeClass recognises as declared
methods, before any exclusion or inheritance filtering. -/
def declaredMethodCount (members : List ClassMember) : Nat :=
  (members.filterMap extractISPMember).length

/-- The member loop of analyzeClass (isp rule lines 124-156): drop members
whose name contains an exclude pattern, then (when ignoreInherited) drop
methods isInheritedMethod attributes to an ancestor; keep the rest in
order as fresh method records.  none propagates a non-terminating
isInheritedMethod walk. -/
def ispFilterMethods (excludePatterns : List String) (ignoreInherited : Bool)
    (inheritanceChain : List (String × String))
    (classMethods : List (String × List String)) (fuel : Nat)
    (className : String) : List ClassMember → Option (List ISPMethodInfo)
  | [] => some []
  | m :: ms =>
    match extractISPMember m with
    | none => ispFilterMethods excludePatterns ignoreInherited inheritanceChain
        classMethods fuel className ms
    | some (n, p, c, mt) =>
      if excludePatterns.any (fun pattern => includesSub n pattern) then
        ispFilterMethods excludePatterns ignoreInherited inheritanceChain
          classMethods fuel className ms
      else if ignoreInherited then
        match isInheritedMethodFuel inheritanceChain classMethods fuel className n with
        | none => none
        | some true => ispFilterMethods excludePatterns ignoreInherited
            inheritanceChain classMethods fuel className ms
        | some false =>
          (ispFilterMethods excludePatterns ignoreInherited inheritanceChain
            classMethods fuel className ms).map
            (fun rest => ⟨n, categorizeMethod n, false, 0, p, c, mt⟩ :: rest)
      else
        (ispFilterMethods excludePatterns ignoreInherited inheritanceChain
          classMethods fuel className ms).map
          (fun rest => ⟨n, categorizeMethod n, false, 0, p, c, mt⟩ :: rest)

/-- analyzeClass (isp rule lines 115-173) restricted to the record it
stores for one class: the filtered method list, its length as
totalMethods, the interface-likeness of the name, and the superclass. -/
def analyzeClassInfo (excludePatterns : List String) (ignoreInherited : Bool)
    (inheritanceChain : List (String × String))
    (classMethods : List (String × List String)) (fuel : Nat)
    (className : String) (superClass : Option String)
    (members : List ClassMember) : Option ISPClassInfo :=
  (ispFilterMethods excludePatterns ignoreInherited inheritanceChain
    classMethods fuel className members).map
    (fun methods =>
      ⟨methods, methods.length, isInterfaceLikeNaming className, false, superClass⟩)

/-- The four context.report sites of performISPAnalysis (isp rule lines
481-515), one constructor per report call, carrying the interpolated data. -/
inductive ISPDiag where
  | fatInterface (className : String) (total : Nat)
  | unusedMethods (className : String) (methodDetails : String)
  | segregation (className : String) (categories : List String)
  | mixedResponsibilities (className : String) (categories : List String)
deriving Repr, DecidableEq

/-- The key set of the methodCategories map in first-insertion order:
the distinct categories of the method list. -/
def categoriesOf (ms : List ISPMethodInfo) : List String :=
  ms.foldl (fun acc m => if acc.contains m.category then acc else acc ++ [m.category]) []

/-- hasSegregationViolations (isp rule lines 545-571): more than three
distinct categories, or some method's complexity further than the threshold
from the average.  JS number arithmetic is modelled over the rationals. -/
def hasSegregationViolations (complexityVarianceThreshold : Nat)
    (ci : ISPClassInfo) : Bool :=
  let categories := categoriesOf ci.methods
  if categories.length > 3 then true
  else
    let complexities := ci.methods.map (fun m => (m.complexity : ℚ))
    if complexities.length > 1 then
      let avgComplexity := complexities.sum / (complexities.length : ℚ)
      complexities.any (fun c => |c - avgComplexity| > (complexityVarianceThreshold : ℚ))
    else false

/-- The incompatiblePairs table of hasMixedResponsibilities
(isp rule lines 592-601). -/
def incompatiblePairs : List (String × String) :=
  [("data", "ui"), ("validation", "communication"), ("calculation", "ui"),
   ("lifecycle", "data"), ("security", "ui"), ("navigation", "calculation"),
   ("utility", "data"), ("transformation", "ui")]

/-- hasMixedResponsibilities (isp rule lines 586-611). -/
def hasMixedResponsibilities (ci : ISPClassInfo) : Bool :=
  let categoryNames := categoriesOf ci.methods
  incompatiblePairs.any (fun p => categoryNames.contains p.1 && categoryNames.contains p.2)

/-- The methodDetails string of reportUnusedMethods
(isp rule lines 529-532). -/
def unusedMethodDetails (includeUsageCount : Bool) (unused : List ISPMethodInfo) : String :=
  String.intercalate ", " (unused.map (fun m =>
    if includeUsageCount then m.name ++ " (" ++ toString m.usageCount ++ " uses)"
    else m.name))

/-- The loop body of performISPAnalysis (isp rule lines 484-512) for one
classAnalysis entry: fat-interface check, unused-methods check,
segregation check, mixed-responsibilities check, reports in that order. -/
def ispClassDiags (maxMethods maxUnusedMethods complexityVarianceThreshold : Nat)
    (includeUsageCount : Bool) (className : String) (ci : ISPClassInfo) : List ISPDiag :=
  (if ci.totalMethods > maxMethods then [.fatInterface className ci.totalMethods] else [])
  ++ (let unused := ci.methods.filter (fun m => !m.isUsed)
      if unused.length > maxUnusedMethods then
        [.unusedMethods className (unusedMethodDetails includeUsageCount unused)]
      else [])
  ++ (if hasSegregationViolations complexityVarianceThreshold ci then
        [.segregation className (categoriesOf ci.methods)] else [])
  ++ (if hasMixedResponsibilities ci then
        [.mixedResponsibilities className (categoriesOf ci.methods)] else [])

/-- performISPAnalysis (isp rule lines 481-515): run the per-class checks
over every classAnalysis entry, in map order. -/
def performISPAnalysis (maxMethods maxUnusedMethods complexityVarianceThreshold : Nat)
    (includeUsageCount : Bool)
    (classAnalysis : List (String × ISPClassInfo)) : List ISPDiag :=
  classAnalysis.flatMap (fun e =>
    ispClassDiags maxMethods maxUnusedMethods complexityVarianceThreshold
      includeUsageCount e.1 e.2)

/-- Discriminator: a fat-interface diagnostic for the given class. -/
def isFatDiagFor (className : String) : ISPDiag → Bool
  | .fatInterface c _ => c == className
  | _ => false

/-- Discriminator: an unused-methods diagnostic for the given class. -/
def isUnusedDiagFor (className : String) : ISPDiag → Bool
  | .unusedMethods c _ => c == className
  | _ => false

/-- Number of unused methods of a class record, as performISPAnalysis
computes it. -/
def unusedCount (ci : ISPClassInfo) : Nat :=
  (ci.methods.filter (fun m => !m.isUsed)).length

end ISP

section ISPTheorems

/-- Per-entry count of fat-interface diagnostics: one exactly when the entry
is for the class in question and its method total is over the ceiling. -/
theorem countP_ispClassDiags_fat (m u v : Nat) (inc : Bool) (cn k : String)
    (info : ISPClassInfo) :
    (ispClassDiags m u v inc k info).countP (fun d => isFatDiagFor cn d) =
      if k = cn ∧ info.totalMethods > m then 1 else 0 := by
  simp only [ispClassDiags, List.countP_append]
  split_ifs with h1 h2 <;>
    simp_all [isFatDiagFor, List.countP_cons, List.countP_nil, beq_iff_eq]

/-- Per-entry count of unused-methods diagnostics: one exactly when the
entry is for the class in question and its unused-method count is over the
ceiling. -/
theorem countP_ispClassDiags_unused (m u v : Nat) (inc : Bool) (cn k : String)
    (info : ISPClassInfo) :
    (ispClassDiags m u v inc k info).countP (fun d => isUnusedDiagFor cn d) =
      if k = cn ∧ unusedCount info > u then 1 else 0 := by
  simp only [ispClassDiags, List.countP_append, unusedCount]
  split_ifs with h1 h2 <;>
    simp_all [isUnusedDiagFor, List.countP_cons, List.countP_nil, beq_iff_eq]

/-- Classes not present among the analysis keys get no fat-interface
diagnostic. -/
theorem countP_fat_not_mem (m u v : Nat) (inc : Bool) (cn : String)
    (l : List (String × ISPClassInfo)) (h : cn ∉ l.map Prod.fst) :
    (performISPAnalysis m u v inc l).countP (fun d => isFatDiagFor cn d) = 0 := by
  induction l with
  | nil => rfl
  | cons hd tl ih =>
    simp only [List.map_cons, List.mem_cons, not_or] at h
    simp only [performISPAnalysis, List.flatMap_cons, List.countP_append,
      countP_ispClassDiags_fat]
    rw [if_neg (by exact fun hc => h.1 hc.1.symm)]
    simpa [performISPAnalysis] using ih h.2

/-- Eleven declared methods, one of them named "toString" (a default
exclude pattern), used to refute claim C2 as stated. -/
def c2Members : List ClassMember :=
  [.methodDef (some "m1") 0 1, .methodDef (some "m2") 0 1,
   .methodDef (some "m3") 0 1, .methodDef (some "m4") 0 1,
   .methodDef (some "m5") 0 1, .methodDef (some "m6") 0 1,
   .methodDef (some "m7") 0 1, .methodDef (some "m8") 0 1,
   .methodDef (some "m9") 0 1, .methodDef (some "m10") 0 1,
   .methodDef (some "toString") 0 1]

/-- A generic method record used by the ISP witnesses. -/
def wMethod (n : String) : ISPMethodInfo := ⟨n, "general", false, 0, 0, 1, "method"⟩

/-- The record analyzeClass stores for the class declaring c2Members:
"toString" is gone and only ten methods are counted. -/
def c2Info : ISPClassInfo :=
  ⟨["m1", "m2", "m3", "m4", "m5", "m6", "m7", "m8", "m9", "m10"].map wMethod,
   10, false, false, none⟩

/-- Claim C2 counterexample: a class declaring 11 methods against the
default ceiling 10, one of them named "toString".  The declared method
count exceeds the ceiling, yet analyzeClass records only 10 methods (the
default exclude patterns drop "toString" by name) and performISPAnalysis
emits zero fat-interface diagnostics for the class — so the diagnostic does
depend on method names, refuting "regardless of method content". -/
theorem ispFatInterface_c2_counterexample :
    declaredMethodCount c2Members = 11 ∧
    analyzeClassInfo ["constructor", "toString", "valueOf"] true [] [] 1
        "Widget" none c2Members = some c2Info ∧
    c2Info.totalMethods = 10 ∧
    (performISPAnalysis 10 3 5 true [("Widget", c2Info)]).countP
      (fun d => isFatDiagFor "Widget" d) = 0 := by
  refine ⟨by decide, by decide, rfl, ?_⟩
  simp [performISPAnalysis, List.countP_append, countP_ispClassDiags_fat, c2Info]

/-- Claim C2 (amended): for every classAnalysis entry whose recorded
method total — declared methods minus excluded names and minus inherited
methods, as analyzeClass counts them — exceeds the maxMethods ceiling,
performISPAnalysis emits exactly one fat-interface diagnostic for that
class, regardless of the remaining method content (bodies, categories,
usage). -/
theorem ispFatInterface_unique
    (maxMethods maxUnusedMethods cvt : Nat) (inc : Bool)
    (classAnalysis : List (String × ISPClassInfo))
    (className : String) (ci : ISPClassInfo)
    (hmem : (className, ci) ∈ classAnalysis)
    (hnodup : (classAnalysis.map Prod.fst).Nodup)
    (hgt : ci.totalMethods > maxMethods) :
    (performISPAnalysis maxMethods maxUnusedMethods cvt inc classAnalysis).countP
      (fun d => isFatDiagFor className d) = 1 := by
  induction classAnalysis with
  | nil => cases hmem
  | cons hd tl ih =>
    simp only [List.map_cons, List.nodup_cons] at hnodup
    simp only [performISPAnalysis, List.flatMap_cons, List.countP_append,
      countP_ispClassDiags_fat]
    rcases List.mem_cons.mp hmem with heq | htl
    · have h1 : hd.1 = className := by rw [← heq]
      have h2 : hd.2 = ci := by rw [← heq]
      rw [if_pos ⟨h1, by rw [h2]; exact hgt⟩]
      have : className ∉ tl.map Prod.fst := h1 ▸ hnodup.1
      simpa [performISPAnalysis] using countP_fat_not_mem maxMethods
        maxUnusedMethods cvt inc className tl this
    · have hne : hd.1 ≠ className := by
        intro hc
        exact hnodup.1 (hc ▸ (List.mem_map.mpr ⟨(className, ci), htl, rfl⟩))
      rw [if_neg (fun hc => hne hc.1)]
      simpa [performISPAnalysis] using ih htl hnodup.2

/-- An analysis entry with 11 recorded methods, over the default ceiling. -/
def wInfo : ISPClassInfo :=
  ⟨["m1", "m2", "m3", "m4", "m5", "m6", "m7", "m8", "m9", "m10", "m11"].map wMethod,
   11, false, false, none⟩

/-- Witness for the amended C2 at a concrete one-class analysis state. -/
theorem ispFatInterface_unique_witness :
    (performISPAnalysis 10 3 5 true [("Widget", wInfo)]).countP
      (fun d => isFatDiagFor "Widget" d) = 1 :=
  ispFatInterface_unique 10 3 5 true [("Widget", wInfo)] "Widget" wInfo
    (by decide) (by decide) (by decide)

/-- The cyclic inheritance declarations class A extends B / class B
extends A, as trackInheritance records them. -/
def cycleChain : List (String × String) := [("A", "B"), ("B", "A")]

/-- Recorded methods for the cyclic classes; neither declares "probe". -/
def cycleMethods : List (String × List String) := [("A", ["m"]), ("B", ["m"])]

/-- On the cycle, after any number of iterations starting from either class
the walk has neither found the method nor stopped. -/
theorem isInheritedMethod_cycle_aux (fuel : Nat) :
    isInheritedMethodFuel cycleChain cycleMethods fuel "A" "probe" = none ∧
    isInheritedMethodFuel cycleChain cycleMethods fuel "B" "probe" = none := by
  induction fuel with
  | zero => exact ⟨rfl, rfl⟩
  | succ n ih =>
    refine ⟨?_, ?_⟩
    · simpa [isInheritedMethodFuel, cycleChain, cycleMethods, alookup] using ih.2
    · simpa [isInheritedMethodFuel, cycleChain, cycleMethods, alookup] using ih.1

/-- Claim C3: the claim says a visited-name set makes isInheritedMethod
terminate on cyclic chains.  The source loop keeps no visited set: on the
cyclic chain A ⇄ B, resolving a method neither class declares never
returns — after every finite number of loop iterations the walk is still
running (none for every fuel). -/
theorem isInheritedMethod_cycle_diverges :
    ∀ fuel : Nat,
      isInheritedMethodFuel cycleChain cycleMethods fuel "A" "probe" = none :=
  fun fuel => (isInheritedMethod_cycle_aux fuel).1

/-- Classes not present among the analysis keys get no unused-methods
diagnostic. -/
theorem countP_unused_not_mem (m u v : Nat) (inc : Bool) (cn : String)
    (l : List (String × ISPClassInfo)) (h : cn ∉ l.map Prod.fst) :
    (performISPAnalysis m u v inc l).countP (fun d => isUnusedDiagFor cn d) = 0 := by
  induction l with
  | nil => rfl
  | cons hd tl ih =>
    simp only [List.map_cons, List.mem_cons, not_or] at h
    simp only [performISPAnalysis, List.flatMap_cons, List.countP_append,
      countP_ispClassDiags_unused]
    rw [if_neg (by exact fun hc => h.1 hc.1.symm)]
    simpa [performISPAnalysis] using ih h.2

/-- Claim C10: the options schema permits maxUnusedMethods: 0, but the
option is read with options.maxUnusedMethods || 3, and 0 is falsy, so a
configured 0 behaves exactly like the default 3: a class with between 1
and 3 unused methods gets no unused-methods diagnostic even though its
unused count exceeds the configured 0. -/
theorem ispMaxUnusedZero_behavesAsDefault :
    jsNumOr (some 0) 3 = jsNumOr none 3 ∧
    ∀ (maxMethods cvt : Nat) (inc : Bool)
      (classAnalysis : List (String × ISPClassInfo))
      (className : String) (ci : ISPClassInfo),
      (className, ci) ∈ classAnalysis →
      (classAnalysis.map Prod.fst).Nodup →
      1 ≤ unusedCount ci → unusedCount ci ≤ 3 →
      (performISPAnalysis maxMethods (jsNumOr (some 0) 3) cvt inc
        classAnalysis).countP (fun d => isUnusedDiagFor className d) = 0 := by
  refine ⟨rfl, ?_⟩
  intro maxMethods cvt inc classAnalysis className ci hmem hnodup _h1 h3
  induction classAnalysis with
  | nil => cases hmem
  | cons hd tl ih =>
    simp only [List.map_cons, List.nodup_cons] at hnodup
    simp only [performISPAnalysis, List.flatMap_cons, List.countP_append,
      countP_ispClassDiags_unused]
    rcases List.mem_cons.mp hmem with heq | htl
    · have h1 : hd.1 = className := by rw [← heq]
      have h2 : hd.2 = ci := by rw [← heq]
      rw [if_neg (by
        rintro ⟨-, hgt⟩
        rw [h2, show jsNumOr (some 0) 3 = 3 from rfl] at hgt
        omega)]
      have : className ∉ tl.map Prod.fst := h1 ▸ hnodup.1
      simpa [performISPAnalysis] using countP_unused_not_mem maxMethods
        (jsNumOr (some 0) 3) cvt inc className tl this
    · have hne : hd.1 ≠ className := by
        intro hc
        exact hnodup.1 (hc ▸ (List.mem_map.mpr ⟨(className, ci), htl, rfl⟩))
      rw [if_neg (fun hc => hne hc.1)]
      simpa [performISPAnalysis] using ih htl hnodup.2

/-- An analysis entry with exactly two unused methods. -/
def uInfo : ISPClassInfo := ⟨[wMethod "alpha", wMethod "beta"], 2, false, false, none⟩

/-- Witness for C10: a concrete class with 2 unused methods under
maxUnusedMethods: 0 gets no unused-methods diagnostic. -/
theorem ispMaxUnusedZero_behavesAsDefault_witness :
    (performISPAnalysis 10 (jsNumOr (some 0) 3) 5 true
      [("Gadget", uInfo)]).countP (fun d => isUnusedDiagFor "Gadget" d) = 0 :=
  ispMaxUnusedZero_behavesAsDefault.2 10 5 true [("Gadget", uInfo)] "Gadget" uInfo
    (by decide) (by decide) (by decide) (by decide)

end ISPTheorems

section LSP

/-!
## lsp-substitution.js

src/lib/rules/lsp-substitution.js.  The rule's helpers are generic walks
over ESTree nodes ("for every object-valued field, recurse"); here they are
structural recursions over an ESTree-shaped syntax tree.  The tree covers
the node kinds the rule's predicates test for; statements never occur
inside the expression forms below, so walks that only collect statement
nodes recurse through statements.

JS field-access quirks are modelled explicitly:
* a Literal node has a .value; every other node kind yields undefined
  when .value is read, so x.value === undefined is TRUE for them;
* NewExpression.callee.name is undefined unless the callee is an
  Identifier, and undefined === undefined holds, which
  isSameExceptionType inherits.
-/

mutual
/-- ESTree expression forms used by the LSP rule: identifiers, the null
literal, other literals (by printed form), binary / unary / logical /
conditional expressions, new expressions, calls, and member accesses. -/
inductive JSExpr where
  | identE (name : String)
  | litNull
  | litVal (val : String)
  | binaryE (op : String) (l r : JSExpr)
  | unaryE (op : String) (arg : JSExpr)
  | logicalE (op : String) (l r : JSExpr)
  | condE (c t e : JSExpr)
  | newE (callee : JSExpr) (args : List JSExpr)
  | callE (callee : JSExpr) (args : List JSExpr)
  | memberE (obj : JSExpr) (prop : String)

/-- ESTree statement forms used by the LSP rule. -/
inductive JSStmt where
  | exprStmt (e : JSExpr)
  | ifS (test : JSExpr) (conseq : JSStmt) (alt : Option JSStmt)
  | retS (arg : Option JSExpr)
  | throwS (arg : JSExpr)
  | blockS (body : List JSStmt)
  | whileS (test : JSExpr) (body : JSStmt)
  | tryS (blk : JSStmt) (handler : Option JSStmt)
  | varDecl (name : String) (init : Option JSExpr)
end

/-- An override or base method as the rule sees it: MethodDefinition key
name, value.params.length, and the statements of the function body
block. -/
structure MethodDef where
  name : String
  params : Nat
  body : List JSStmt

/-- isParameterValidation(testNode) (lsp rule lines 287-303): a
BinaryExpression whose left is an identifier compared with a null
literal, or whose operator is one of the four (in)equality operators. -/
def isParameterValidation : JSExpr → Bool
  | .binaryE op l r =>
    (match l, r with
     | .identE _, .litNull => true
     | _, _ => false) ||
    (op == "==" || op == "===" || op == "!=" || op == "!==")
  | _ => false

mutual
/-- The walk of getParameterValidations (lsp rule lines 259-285): collect
the tests of all IfStatement descendants passing isParameterValidation,
continuing into the if's own children. -/
def validationTestsStmt : JSStmt → List JSExpr
  | .exprStmt _ => []
  | .ifS test conseq alt =>
    (if isParameterValidation test then [test] else []) ++
    validationTestsStmt conseq ++
    (match alt with | some s => validationTestsStmt s | none => [])
  | .retS _ => []
  | .throwS _ => []
  | .blockS body => validationTestsList body
  | .whileS _ body => validationTestsStmt body
  | .tryS blk handler =>
    validationTestsStmt blk ++
    (match handler with | some s => validationTestsStmt s | none => [])
  | .varDecl _ _ => []

def validationTestsList : List JSStmt → List JSExpr
  | [] => []
  | s :: ss => validationTestsStmt s ++ validationTestsList ss
end

/-- getParameterValidations(functionNode) on a function body block. -/
def getParameterValidations (body : List JSStmt) : List JSExpr :=
  validationTestsList body

mutual
/-- The walk of getThrowStatements (lsp rule lines 379-403): the
arguments of all ThrowStatement descendants (the walk stops at a throw,
and a throw's argument holds no statements). -/
def throwArgsStmt : JSStmt → List JSExpr
  | .exprStmt _ => []
  | .ifS _ conseq alt =>
    throwArgsStmt conseq ++
    (match alt with | some s => throwArgsStmt s | none => [])
  | .retS _ => []
  | .throwS arg => [arg]
  | .blockS body => throwArgsList body
  | .whileS _ body => throwArgsStmt body
  | .tryS blk handler =>
    throwArgsStmt blk ++
    (match handler with | some s => throwArgsStmt s | none => [])
  | .varDecl _ _ => []

def throwArgsList : List JSStmt → List JSExpr
  | [] => []
  | s :: ss => throwArgsStmt s ++ throwArgsList ss
end

/-- getThrowStatements(functionNode) on a function body block, keeping
each throw's argument. -/
def getThrowArgs (body : List JSStmt) : List JSExpr :=
  throwArgsList body

/-- hasThrowStatements(functionNode) (lsp rule lines 206-231): does the
body contain a ThrowStatement. -/
def hasThrowStatements (body : List JSStmt) : Bool :=
  !(getThrowArgs body).isEmpty

mutual
/-- The walk of getReturnStatements (lsp rule lines 233-257): the
arguments of all ReturnStatement descendants (the walk stops at a
return). -/
def returnArgsStmt : JSStmt → List (Option JSExpr)
  | .exprStmt _ => []
  | .ifS _ conseq alt =>
    returnArgsStmt conseq ++
    (match alt with | some s => returnArgsStmt s | none => [])
  | .retS arg => [arg]
  | .throwS _ => []
  | .blockS body => returnArgsList body
  | .whileS _ body => returnArgsStmt body
  | .tryS blk handler =>
    returnArgsStmt blk ++
    (match handler with | some s => returnArgsStmt s | none => [])
  | .varDecl _ _ => []

def returnArgsList : List JSStmt → List (Option JSExpr)
  | [] => []
  | s :: ss => returnArgsStmt s ++ returnArgsList ss
end

/-- getReturnStatements(functionNode) on a function body block, keeping
each return's argument. -/
def getReturnStatements (body : List JSStmt) : List (Option JSExpr) :=
  returnArgsList body

/-- canReturnNull(returnStatements) (lsp rule lines 349-355): some return
has an argument that is a null literal. -/
def canReturnNull (returns : List (Option JSExpr)) : Bool :=
  returns.any (fun a =>
    match a with
    | some .litNull => true
    | _ => false)

/-- The .right.value === null || .right.value === undefined test of
hasAdditionalNullChecks on a collected validation test: a null literal
right operand passes, a non-null literal fails, and every non-literal right
operand passes because reading .value off it yields undefined. -/
def rightValueIsNullOrUndefined : JSExpr → Bool
  | .binaryE _ _ r =>
    (match r with
     | .litNull => true
     | .litVal _ => false
     | _ => true)
  | _ => false

/-- hasAdditionalNullChecks(functionNode) (lsp rule lines 305-312). -/
def hasAdditionalNullChecks (body : List JSStmt) : Bool :=
  (getParameterValidations body).any (fun test => rightValueIsNullOrUndefined test)

mutual
/-- The walk of hasStricterTypeChecks (lsp rule lines 314-347) over
expressions: a BinaryExpression whose left operand is a typeof unary,
or whose operator is instanceof. -/
def stricterExpr : JSExpr → Bool
  | .identE _ => false
  | .litNull => false
  | .litVal _ => false
  | .binaryE op l r =>
    (match l with | .unaryE lop _ => lop == "typeof" | _ => false) ||
    op == "instanceof" || stricterExpr l || stricterExpr r
  | .unaryE _ arg => stricterExpr arg
  | .logicalE _ l r => stricterExpr l || stricterExpr r
  | .condE c t e => stricterExpr c || stricterExpr t || stricterExpr e
  | .newE callee args => stricterExpr callee || stricterExprList args
  | .callE callee args => stricterExpr callee || stricterExprList args
  | .memberE obj _ => stricterExpr obj

def stricterExprList : List JSExpr → Bool
  | [] => false
  | e :: es => stricterExpr e || stricterExprList es

def stricterStmt : JSStmt → Bool
  | .exprStmt e => stricterExpr e
  | .ifS test conseq alt =>
    stricterExpr test || stricterStmt conseq ||
    (match alt with | some s => stricterStmt s | none => false)
  | .retS arg => (match arg with | some e => stricterExpr e | none => false)
  | .throwS arg => stricterExpr arg
  | .blockS body => stricterStmtList body
  | .whileS test bdy => stricterExpr test || stricterStmt bdy
  | .tryS blk handler =>
    stricterStmt blk ||
    (match handler with | some s => stricterStmt s | none => false)
  | .varDecl _ init => (match init with | some e => stricterExpr e | none => false)

def stricterStmtList : List JSStmt → Bool
  | [] => false
  | s :: ss => stricterStmt s || stricterStmtList ss
end

/-- hasStricterTypeChecks(functionNode) on a function body block. -/
def hasStricterTypeChecks (body : List JSStmt) : Bool :=
  stricterStmtList body

/-- hasStrongerPreconditions(methodNode, baseMethodInfo) (lsp rule lines
87-108).  baseMethodInfo is the registry record of the base method: its
stored fields are exactly what the same helpers compute on the base method
node, so it is carried as the base MethodDef and the fields are
recomputed.  null base info yields empty validations / empty parameter
list. -/
def hasStrongerPreconditions (m : MethodDef) (baseMethodInfo : Option MethodDef) : Bool :=
  let currentValidations := getParameterValidations m.body
  let baseValidations :=
    match baseMethodInfo with
    | some b => getParameterValidations b.body
    | none => []
  if currentValidations.length > baseValidations.length then true
  else
    let baseParamsLength :=
      match baseMethodInfo with
      | some b => b.params
      | none => 0
    if m.params < baseParamsLength then true
    else hasAdditionalNullChecks m.body || hasStricterTypeChecks m.body

/-- hasWeakerPostconditions(methodNode, baseMethodInfo) (lsp rule lines
110-129): true when the override can return null and the base cannot;
the explicit "base throws but current does not" branch returns false
(removal of throwing is fine), and the fall-through is false too. -/
def hasWeakerPostconditions (m : MethodDef) (baseMethodInfo : Option MethodDef) : Bool :=
  let currentReturns := getReturnStatements m.body
  let baseReturns :=
    match baseMethodInfo with
    | some b => getReturnStatements b.body
    | none => []
  if canReturnNull currentReturns && !canReturnNull baseReturns then true
  else
    let currentThrows := hasThrowStatements m.body
    let baseThrows :=
      match baseMethodInfo with
      | some b => hasThrowStatements b.body
      | none => false
    if baseThrows && !currentThrows then false
    else false

/-- throw.argument.callee.name for a new argument: undefined (none)
unless the callee is an identifier. -/
def jsCalleeName : JSExpr → Option String
  | .identE n => some n
  | _ => none

/-- isSameExceptionType(throw1, throw2) (lsp rule lines 405-416): two
new C(...) arguments compare by callee name (both undefined compares
equal), two identifier arguments compare by name, anything else is not the
same type. -/
def isSameExceptionType (t1 t2 : JSExpr) : Bool :=
  match t1, t2 with
  | .newE c1 _, .newE c2 _ => jsCalleeName c1 == jsCalleeName c2
  | .identE n1, .identE n2 => n1 == n2
  | _, _ => false

/-- throwsNewExceptionTypes(currentMethod, baseMethod) (lsp rule lines
357-377): current throws while the base has no throw at all, or some
current throw matches no base throw under isSameExceptionType. -/
def throwsNewExceptionTypes (cur base : MethodDef) : Bool :=
  let currentThrows := getThrowArgs cur.body
  let baseThrows := getThrowArgs base.body
  if currentThrows.length > 0 && baseThrows.length == 0 then true
  else currentThrows.any (fun t => !(baseThrows.any (fun b => isSameExceptionType t b)))

/-- The three context.report sites of checkLSPViolation (lsp rule lines
154-183), one constructor per message. -/
inductive LSPDiag where
  | strongerPreconditions (methodName : String)
  | weakerPostconditions (methodName : String)
  | newExceptionTypes (methodName : String)
deriving Repr, DecidableEq

/-- checkLSPViolation(methodNode, classNode, context) (lsp rule lines
154-183): report stronger preconditions, weaker postconditions, and — only
when the base method is registered — new exception types, in that order. -/
def checkLSPViolation (m : MethodDef) (baseMethodInfo : Option MethodDef) : List LSPDiag :=
  (if hasStrongerPreconditions m baseMethodInfo then
    [.strongerPreconditions m.name] else [])
  ++ (if hasWeakerPostconditions m baseMethodInfo then
    [.weakerPostconditions m.name] else [])
  ++ (match baseMethodInfo with
      | some b =>
        if throwsNewExceptionTypes m b then [.newExceptionTypes m.name] else []
      | none => [])

end LSP

section LSPTheorems

/-- An override with no validation guard and zero parameters. -/
def c1Override : MethodDef := ⟨"process", 0, []⟩

/-- A base method with no validation guard and one parameter. -/
def c1Base : MethodDef := ⟨"process", 1, []⟩

/-- Claim C1 counterexample: override and base both have zero validation
guards (equal guard counts), yet a stronger-precondition diagnostic IS
emitted, because the override takes fewer parameters than the base — the
fewer-parameters branch of hasStrongerPreconditions fires independently
of guard counts. -/
theorem lsp_strongerPreconditions_c1_counterexample :
    (getParameterValidations c1Override.body).length =
      (getParameterValidations c1Base.body).length ∧
    checkLSPViolation c1Override (some c1Base) =
      [LSPDiag.strongerPreconditions "process"] := by
  decide

/-- Claim C1 (amended): when the base method has zero validation guards and
the override adds one, the stronger-precondition diagnostic is always
emitted; and when the guard counts are equal, no stronger-precondition
diagnostic is emitted provided the override additionally does not take
fewer parameters than the base, has no validation guard whose right operand
the code counts as a null check, and contains no typeof/instanceof
comparison. -/
theorem lsp_strongerPreconditions_amended :
    (∀ (m base : MethodDef),
      (getParameterValidations base.body).length = 0 →
      (getParameterValidations m.body).length = 1 →
      LSPDiag.strongerPreconditions m.name ∈ checkLSPViolation m (some base)) ∧
    (∀ (m base : MethodDef),
      (getParameterValidations m.body).length =
        (getParameterValidations base.body).length →
      base.params ≤ m.params →
      hasAdditionalNullChecks m.body = false →
      hasStricterTypeChecks m.body = false →
      LSPDiag.strongerPreconditions m.name ∉ checkLSPViolation m (some base)) := by
  constructor
  · intro m base hb hm
    have h : hasStrongerPreconditions m (some base) = true := by
      simp [hasStrongerPreconditions, hb, hm]
    simp [checkLSPViolation, h]
  · intro m base heq hle hnull hstrict
    have h : hasStrongerPreconditions m (some base) = false := by
      simp only [hasStrongerPreconditions, heq, hnull, hstrict]
      simp [Nat.not_lt.mpr hle]
    simp only [checkLSPViolation, h, if_false, Bool.false_eq_true]
    simp only [List.nil_append, List.mem_append]
    rintro (hmem | hmem) <;> revert hmem <;> split_ifs <;> simp

/-- An override whose only guard compares a parameter with null. -/
def c1GuardOverride : MethodDef :=
  ⟨"handle", 1, [.ifS (.binaryE "===" (.identE "x") .litNull) (.blockS []) none]⟩

/-- A base method with no guard. -/
def c1GuardBase : MethodDef := ⟨"handle", 1, []⟩

/-- A method with no guards, used on both sides of the equal-count case. -/
def c1Plain : MethodDef := ⟨"tick", 1, []⟩

/-- Witness for the amended C1 at concrete methods: one added guard fires
the diagnostic; equal guard counts with none of the extra triggers stay
silent. -/
theorem lsp_strongerPreconditions_amended_witness :
    LSPDiag.strongerPreconditions "handle" ∈
      checkLSPViolation c1GuardOverride (some c1GuardBase) ∧
    LSPDiag.strongerPreconditions "tick" ∉
      checkLSPViolation c1Plain (some c1Plain) :=
  ⟨lsp_strongerPreconditions_amended.1 c1GuardOverride c1GuardBase
      (by decide) (by decide),
   lsp_strongerPreconditions_amended.2 c1Plain c1Plain
      (by decide) (by decide) (by decide) (by decide)⟩

/-- Claim C6: the LSP rule never flags removal of throwing.
First conjunct: an override whose body has no throw never gets a
new-exception diagnostic.  Second conjunct: the weaker-postcondition check
is a function of the return profiles alone — its explicit throw branch
always answers false, so throw removal cannot trigger it (and
hasStrongerPreconditions inspects no throw data at all).  Third conjunct:
the new-exception check fires exactly when some exception thrown by the
override matches no exception of the base under the code's own type
comparison. -/
theorem lsp_neverFlagsThrowRemoval :
    (∀ (m base : MethodDef),
      getThrowArgs m.body = [] →
      LSPDiag.newExceptionTypes m.name ∉ checkLSPViolation m (some base)) ∧
    (∀ (m : MethodDef) (baseMethodInfo : Option MethodDef),
      hasWeakerPostconditions m baseMethodInfo =
        (canReturnNull (getReturnStatements m.body) &&
          !canReturnNull (match baseMethodInfo with
            | some b => getReturnStatements b.body
            | none => []))) ∧
    (∀ (m base : MethodDef),
      throwsNewExceptionTypes m base = true ↔
        ∃ t ∈ getThrowArgs m.body,
          ∀ b ∈ getThrowArgs base.body, isSameExceptionType t b = false) := by
  refine ⟨?_, ?_, ?_⟩
  · intro m base h
    have hfalse : throwsNewExceptionTypes m base = false := by
      simp [throwsNewExceptionTypes, h]
    simp only [checkLSPViolation, hfalse, Bool.false_eq_true, if_false,
      List.append_nil]
    intro hmem
    simp only [List.mem_append] at hmem
    rcases hmem with hmem | hmem <;> revert hmem <;> split_ifs <;> simp
  · intro m bi
    simp only [hasWeakerPostconditions]
    split_ifs with h1 h2 <;> simp_all
  · intro m base
    simp only [throwsNewExceptionTypes]
    split_ifs with h
    · simp only [Bool.and_eq_true, decide_eq_true_eq, beq_iff_eq,
        List.length_eq_zero] at h
      obtain ⟨hpos, hbase⟩ := h
      simp only [true_iff, hbase, List.not_mem_nil, false_implies, implies_true,
        and_true]
      have hne : getThrowArgs m.body ≠ [] := by
        intro hc
        rw [hc] at hpos
        simp at hpos
      obtain ⟨t, ht⟩ := List.exists_mem_of_ne_nil _ hne
      exact ⟨t, ht⟩
    · simp [List.any_eq_true, Bool.not_eq_true', List.any_eq_false]

/-- A base method throwing new Error(). -/
def lspThrowingBase : MethodDef := ⟨"run", 0, [.throwS (.newE (.identE "Error") [])]⟩

/-- An override of it that does not throw. -/
def lspNoThrowOverride : MethodDef := ⟨"run", 0, [.retS (some (.litVal "1"))]⟩

/-- Witness for C6: removing the base's throw triggers no new-exception
diagnostic at a concrete override/base pair. -/
theorem lsp_neverFlagsThrowRemoval_witness :
    LSPDiag.newExceptionTypes "run" ∉
      checkLSPViolation lspNoThrowOverride (some lspThrowingBase) :=
  lsp_neverFlagsThrowRemoval.1 lspNoThrowOverride lspThrowingBase rfl

end LSPTheorems

section OCP

/-!
## The open/closed rule (src/unnamed/part_004)

The SwitchStatement handler (lines 284-338) and its helpers.  The handler
reads three text spans off the node (sourceCode.getText), carried here as
fields of SwitchNode.  The regular expressions become executable matchers:
/\b(type|kind|status|state|mode)\b/i is a case-insensitive word search
with JS word boundaries (\w = letters, digits, underscore).

The handler's final paragraph only mutates the functionTypeHandling map
consumed by the function-declaration handlers and reports nothing; it is
outside this model.
-/

/-- JS \w: letter, digit or underscore. -/
def isWordChar (c : Char) : Bool := c.isAlphanum || c == '_'

/-- The word w (given in lowercase) matches case-insensitively at the
head of s with a word boundary after it. -/
def wordAtHead (w : List Char) (s : List Char) : Bool :=
  charsPrefix w (s.map Char.toLower) &&
  (match s.drop w.length with
   | [] => true
   | c :: _ => !isWordChar c)

/-- Case-insensitive \b w \b search: scan s carrying whether the
previous character was a word character (no boundary there). -/
def hasWordCI (w : List Char) : Bool → List Char → Bool
  | _, [] => false
  | prevW, c :: cs =>
    (!prevW && wordAtHead w (c :: cs)) || hasWordCI w (isWordChar c) cs

/-- The alternation of isEnumPattern's regular expression. -/
def enumWords : List String := ["type", "kind", "status", "state", "mode"]

/-- isEnumPattern(node) (ocp rule lines 161-165) on the text of the
switch discriminant: /\b(type|kind|status|state|mode)\b/i.test(text). -/
def isEnumPattern (discriminantText : String) : Bool :=
  enumWords.any (fun w => hasWordCI w.toList false discriminantText.toList)

/-- isFactoryFunction(node) (ocp rule lines 155-159) on the function's
optional identifier name. -/
def isFactoryFunction (idName : Option String) : Bool :=
  match idName with
  | none => false
  | some n =>
    let name := toLowerStr n
    includesSub name "factory" || includesSub name "create" || includesSub name "builder"

/-- The /\.(type|kind|constructor|__proto__)/ test on the discriminant
text (ocp rule line 308). -/
def typeSwitchDiscriminant (disc : String) : Bool :=
  includesSub disc ".type" || includesSub disc ".kind" ||
  includesSub disc ".constructor" || includesSub disc ".__proto__"

/-- The six type words of detectHardcodedTypes (ocp rule lines 221-238). -/
def hardcodedTypeWords : List String :=
  ["string", "number", "boolean", "object", "array", "function"]

/-- detectHardcodedTypes(node) on the node's text: the set of type words
occurring quoted (single, double or back quotes); only emptiness of the
result is consumed. -/
def detectHardcodedTypes (text : String) : List String :=
  hardcodedTypeWords.filter (fun w =>
    includesSub text ("\x27" ++ w ++ "\x27") ||
    includesSub text ("\"" ++ w ++ "\"") ||
    includesSub text ("\x60" ++ w ++ "\x60"))

/-- The OCP options consumed by the SwitchStatement handler. -/
structure OCPOptions where
  maxSwitchCases : Nat
  allowEnumPatterns : Bool
  allowFactoryPatterns : Bool
  strictMode : Bool
deriving Repr, DecidableEq

/-- Default OCP options (ocp rule lines 113, 133-135). -/
def defaultOCPOptions : OCPOptions := ⟨5, true, true, false⟩

/-- OCP options with strictMode: true and everything else default. -/
def strictOCPOptions : OCPOptions := ⟨5, true, true, true⟩

/-- A SwitchStatement node as the handler reads it: its case count, the
text spans of discriminant and whole statement, and its parent's type and
optional identifier name. -/
structure SwitchNode where
  caseCount : Nat
  discriminantText : String
  sourceText : String
  parentType : String
  parentIdName : Option String
deriving Repr, DecidableEq

/-- The context.report sites of the SwitchStatement handler. -/
inductive OCPDiag where
  | tooManySwitchCases (count maxAllowed : Nat)
  | extensionViolation (construct : String)
  | magicTypeValues
deriving Repr, DecidableEq

/-- The SwitchStatement handler (ocp rule lines 284-338): outside strict
mode an enum-style discriminant or a factory-named FunctionDeclaration
parent exempts the whole switch; otherwise report too many cases, a
type-based discriminant, and hardcoded type values, in that order. -/
def switchStatementDiags (o : OCPOptions) (sw : SwitchNode) : List OCPDiag :=
  if !o.strictMode && (o.allowEnumPatterns && isEnumPattern sw.discriminantText) then []
  else if !o.strictMode && (o.allowFactoryPatterns &&
      sw.parentType == "FunctionDeclaration" && isFactoryFunction sw.parentIdName) then []
  else
    (if sw.caseCount > o.maxSwitchCases then
      [.tooManySwitchCases sw.caseCount o.maxSwitchCases] else [])
    ++ (if typeSwitchDiscriminant sw.discriminantText then
      [.extensionViolation "switch statement"] else [])
    ++ (if (detectHardcodedTypes sw.sourceText).length > 0 then
      [.magicTypeValues] else [])

end OCP

section OCPTheorems

/-- Claim C4: a switch with more cases than maxSwitchCases and a
discriminant not matching the enum-word pattern always gets a
tooManySwitchCases diagnostic; with a matching discriminant it gets none
under default settings but does under strict mode.  The third hypothesis of
the first part records ESTree well-formedness: a SwitchStatement's parent
is a block/case/loop node, never a FunctionDeclaration (function bodies
are BlockStatements), so the factory exemption cannot apply to a real
tree. -/
theorem switch_tooManyCases_enum_exemption :
    (∀ (o : OCPOptions) (sw : SwitchNode),
      sw.caseCount > o.maxSwitchCases →
      isEnumPattern sw.discriminantText = false →
      sw.parentType ≠ "FunctionDeclaration" →
      OCPDiag.tooManySwitchCases sw.caseCount o.maxSwitchCases ∈
        switchStatementDiags o sw) ∧
    (∀ sw : SwitchNode,
      isEnumPattern sw.discriminantText = true →
      switchStatementDiags defaultOCPOptions sw = []) ∧
    (∀ sw : SwitchNode,
      sw.caseCount > strictOCPOptions.maxSwitchCases →
      OCPDiag.tooManySwitchCases sw.caseCount strictOCPOptions.maxSwitchCases ∈
        switchStatementDiags strictOCPOptions sw) := by
  refine ⟨?_, ?_, ?_⟩
  · intro o sw hgt henum hpar
    have hbeq : (sw.parentType == "FunctionDeclaration") = false :=
      beq_eq_false_iff_ne.mpr hpar
    simp [switchStatementDiags, henum, hbeq, hgt]
  · intro sw henum
    simp [switchStatementDiags, defaultOCPOptions, henum]
  · intro sw hgt
    simp only [strictOCPOptions] at hgt
    simp [switchStatementDiags, strictOCPOptions, hgt]

/-- A six-case switch over a non-enum discriminant in a block. -/
def sw1 : SwitchNode := ⟨6, "color", "switch-color-text", "BlockStatement", none⟩

/-- A six-case switch over an enum-style discriminant in a block. -/
def sw2 : SwitchNode := ⟨6, "action.type", "switch-action-text", "BlockStatement", none⟩

/-- Witness for C4 at concrete switches: non-enum discriminant is flagged
under defaults; enum discriminant is exempt under defaults and flagged in
strict mode. -/
theorem switch_tooManyCases_enum_exemption_witness :
    OCPDiag.tooManySwitchCases 6 5 ∈ switchStatementDiags defaultOCPOptions sw1 ∧
    switchStatementDiags defaultOCPOptions sw2 = [] ∧
    OCPDiag.tooManySwitchCases 6 5 ∈ switchStatementDiags strictOCPOptions sw2 :=
  ⟨switch_tooManyCases_enum_exemption.1 defaultOCPOptions sw1
      (by decide) (by decide) (by decide),
   switch_tooManyCases_enum_exemption.2.1 sw2 (by decide),
   switch_tooManyCases_enum_exemption.2.2 sw2 (by decide)⟩

end OCPTheorems

section DIP

/-!
## The dependency-inversion rule (src/unnamed/part_003)

suggestAbstractPath (lines 141-181) and fileExists (lines 183-193).
External effects are parameters: mm is minimatch, fs is the filesystem
probe fs.existsSync — FsResult.err standing for a thrown exception — and
resolve is the closure path.resolve(path.dirname(context.getFilename()), -)
applied inside fileExists's try block.
-/

/-- Outcome of one fs.existsSync call: a boolean, or a thrown exception. -/
inductive FsResult where
  | ok (b : Bool)
  | err
deriving Repr, DecidableEq

/-- The try-guarded chain a() || b() || c() || d() of existsSync calls:
short-circuit on the first true, move on after false, and let any throw
make the whole fileExists return false (the catch). -/
def tryChainFs (fs : String → FsResult) : List String → Bool
  | [] => false
  | p :: ps =>
    match fs p with
    | .ok true => true
    | .ok false => tryChainFs fs ps
    | .err => false

/-- fileExists(filePath) (dip rule lines 183-193): resolve the path, then
probe it bare and with .js / .ts / .tsx appended; an exception anywhere
gives false. -/
def fileExists (fs : String → FsResult) (resolve : String → String)
    (filePath : String) : Bool :=
  let absolutePath := resolve filePath
  tryChainFs fs [absolutePath, absolutePath ++ ".js",
    absolutePath ++ ".ts", absolutePath ++ ".tsx"]

/-- resolvePathAlias(importPath) (dip rule lines 101-108): the first alias
the import starts with is replaced by its target (String.replace on a
leading occurrence). -/
def resolvePathAlias (pathAliases : List (String × String))
    (importPath : String) : String :=
  match pathAliases.find? (fun a => jsStartsWith importPath a.1) with
  | some a => a.2 ++ importPath.drop a.1.length
  | none => importPath

/-- JS String.replace with a plain (non-global) pattern: replace the first
occurrence only, character-list worker. -/
def replaceFirstChars (pat repl : List Char) : List Char → List Char
  | [] => []
  | c :: cs =>
    if charsPrefix pat (c :: cs) then repl ++ (c :: cs).drop pat.length
    else c :: replaceFirstChars pat repl cs

/-- JS String.replace with a plain string pattern (first occurrence). -/
def replaceFirst (s pat repl : String) : String :=
  String.mk (replaceFirstChars pat.toList repl.toList s.toList)

/-- JS String.replace with an end-anchored pattern such as /\/impl$/. -/
def replaceEnd (s pat repl : String) : String :=
  if jsEndsWith s pat then s.dropRight pat.length ++ repl else s

/-- One step of the suffix-removal regex suffix(\.\w+)?$ replaced by $1:
match the earliest position whose tail is the suffix, optionally followed
by a dot and word characters reaching the end; the match is replaced by the
captured extension. -/
def suffixExtMatchAt (pat : List Char) (s : List Char) : Option (List Char) :=
  if charsPrefix pat s then
    match s.drop pat.length with
    | [] => some []
    | '.' :: w => if !w.isEmpty && w.all isWordChar then some ('.' :: w) else none
    | _ => none
  else none

/-- Character-list worker for the suffix-removal replace. -/
def removeSuffixExtChars (pat : List Char) : List Char → List Char
  | [] => []
  | c :: cs =>
    match suffixExtMatchAt pat (c :: cs) with
    | some captured => captured
    | none => c :: removeSuffixExtChars pat cs

/-- suggestedPath.replace(new RegExp(suffix + extension-group), '$1'). -/
def removeSuffixExt (pat : String) (s : String) : String :=
  String.mk (removeSuffixExtChars pat.toList s.toList)

/-- The fixed directory substitutions and configured suffix removals of
suggestAbstractPath (dip rule lines 156-171). -/
def dipSubstitutions (resolvedPath : String) (concreteClassSuffixes : List String) : String :=
  let p1 := replaceFirst resolvedPath "/concrete/" "/interfaces/"
  let p2 := replaceFirst p1 "/impl/" "/interfaces/"
  let p3 := replaceFirst p2 "/implementations/" "/interfaces/"
  let p4 := replaceEnd p3 "/concrete" "/interfaces"
  let p5 := replaceEnd p4 "/impl" "/interfaces"
  let p6 := replaceEnd p5 "/implementations" "/interfaces"
  concreteClassSuffixes.foldl (fun acc suf => removeSuffixExt suf acc) p6

/-- The pattern loop of suggestAbstractPath (dip rule lines 150-178): for
each concrete pattern matching the resolved path, build the substituted
path and return it if it exists on disk; otherwise keep looping; null when
the loop falls through. -/
def suggestAbstractPathLoop (mm : String → String → Bool) (fs : String → FsResult)
    (resolve : String → String) (concreteClassSuffixes : List String)
    (resolvedPath : String) : List String → Option String
  | [] => none
  | pat :: pats =>
    if mm resolvedPath pat then
      let suggestedPath := dipSubstitutions resolvedPath concreteClassSuffixes
      if fileExists fs resolve suggestedPath then some suggestedPath
      else suggestAbstractPathLoop mm fs resolve concreteClassSuffixes resolvedPath pats
    else suggestAbstractPathLoop mm fs resolve concreteClassSuffixes resolvedPath pats

/-- suggestAbstractPath(importPath) (dip rule lines 141-181): a truthy
custom mapping short-circuits; otherwise resolve aliases and run the
pattern loop. -/
def suggestAbstractPath (customMappings pathAliases : List (String × String))
    (concretePatterns concreteClassSuffixes : List String)
    (mm : String → String → Bool) (fs : String → FsResult)
    (resolve : String → String) (importPath : String) : Option String :=
  match alookup importPath customMappings with
  | some mapped =>
    if mapped = "" then
      suggestAbstractPathLoop mm fs resolve concreteClassSuffixes
        (resolvePathAlias pathAliases importPath) concretePatterns
    else some mapped
  | none =>
    suggestAbstractPathLoop mm fs resolve concreteClassSuffixes
      (resolvePathAlias pathAliases importPath) concretePatterns

end DIP

section DIPTheorems

/-- A suggestion returned by the pattern loop passed the existence check. -/
theorem suggestAbstractPathLoop_exists
    (mm : String → String → Bool) (fs : String → FsResult)
    (resolve : String → String) (sufs : List String) (rp : String) :
    ∀ (pats : List String) (p : String),
      suggestAbstractPathLoop mm fs resolve sufs rp pats = some p →
      fileExists fs resolve p = true := by
  intro pats
  induction pats with
  | nil => intro p h; cases h
  | cons pat rest ih =>
    intro p h
    simp only [suggestAbstractPathLoop] at h
    split_ifs at h with h1 h2
    · cases h
      exact h2
    · exact ih p h
    · exact ih p h

/-- With a filesystem whose every probe throws, no existence check ever
passes. -/
theorem fileExists_allErr (fs : String → FsResult) (resolve : String → String)
    (hfs : ∀ q, fs q = FsResult.err) (p : String) :
    fileExists fs resolve p = false := by
  simp [fileExists, tryChainFs, hfs]

/-- With a filesystem whose every probe throws, the pattern loop offers
nothing. -/
theorem suggestAbstractPathLoop_allErr
    (mm : String → String → Bool) (fs : String → FsResult)
    (resolve : String → String) (sufs : List String) (rp : String)
    (hfs : ∀ q, fs q = FsResult.err) :
    ∀ pats : List String,
      suggestAbstractPathLoop mm fs resolve sufs rp pats = none := by
  intro pats
  induction pats with
  | nil => rfl
  | cons pat rest ih =>
    simp only [suggestAbstractPathLoop, fileExists_allErr fs resolve hfs, ih]
    split_ifs <;> first | rfl | assumption

/-- Claim C8: with no custom mapping for the import, a suggested abstract
path is reported only if the substituted path is confirmed to exist on the
filesystem; and when every filesystem lookup fails by throwing, no
suggestion is offered — the try/catch turns the failure into false and the
run continues (the model functions are total). -/
theorem dip_suggestion_only_if_exists :
    (∀ (customMappings pathAliases : List (String × String))
       (concretePatterns concreteClassSuffixes : List String)
       (mm : String → String → Bool) (fs : String → FsResult)
       (resolve : String → String) (importPath p : String),
      alookup importPath customMappings = none →
      suggestAbstractPath customMappings pathAliases concretePatterns
        concreteClassSuffixes mm fs resolve importPath = some p →
      fileExists fs resolve p = true) ∧
    (∀ (customMappings pathAliases : List (String × String))
       (concretePatterns concreteClassSuffixes : List String)
       (mm : String → String → Bool) (fs : String → FsResult)
       (resolve : String → String) (importPath : String),
      (∀ q, fs q = FsResult.err) →
      alookup importPath customMappings = none →
      suggestAbstractPath customMappings pathAliases concretePatterns
        concreteClassSuffixes mm fs resolve importPath = none) := by
  constructor
  · intro cm pa cp sufs mm fs resolve importPath p hcm h
    rw [suggestAbstractPath, hcm] at h
    exact suggestAbstractPathLoop_exists mm fs resolve sufs _ cp p h
  · intro cm pa cp sufs mm fs resolve importPath hfs hcm
    rw [suggestAbstractPath, hcm]
    exact suggestAbstractPathLoop_allErr mm fs resolve sufs _ hfs cp

/-- The default concreteClassSuffixes option of the DIP rule. -/
def dipDefaultSuffixes : List String :=
  ["Impl", "Implementation", "Concrete", "Service", "Repository"]

/-- A concrete stand-in for minimatch: the single concrete pattern matches
paths containing an /impl/ segment. -/
def dipMM : String → String → Bool := fun p pat =>
  pat == "**/impl/**" && includesSub p "/impl/"

/-- A filesystem on which every probe succeeds. -/
def fsAll : String → FsResult := fun _ => .ok true

/-- A filesystem on which every probe throws. -/
def fsErr : String → FsResult := fun _ => .err

/-- Witness for C8: on a concrete import, the offered suggestion passed the
existence check, and under the all-throwing filesystem the same import gets
no suggestion. -/
theorem dip_suggestion_only_if_exists_witness :
    fileExists fsAll id "src/interfaces/User" = true ∧
    suggestAbstractPath [] [] ["**/impl/**"] dipDefaultSuffixes dipMM fsErr id
      "src/impl/UserService" = none :=
  ⟨dip_suggestion_only_if_exists.1 [] [] ["**/impl/**"] dipDefaultSuffixes
      dipMM fsAll id "src/impl/UserService" "src/interfaces/User" rfl (by decide),
   dip_suggestion_only_if_exists.2 [] [] ["**/impl/**"] dipDefaultSuffixes
      dipMM fsErr id "src/impl/UserService" (fun _ => rfl) rfl⟩

end DIPTheorems

section RepositoryArchitecture

/-!
## repository-architecture.js

checkNamingConvention (lines 62-92), checkMethodSignatures (94-116),
checkRepositoryImplementation (176-209) and the ClassDeclaration handler
(219-224) of src/lib/rules/repository-architecture.js.  A method's body
text (sourceCode.getText of the body) is carried as an optional string;
the complex-conditional regular expression becomes an executable matcher.
-/

/-- A method of a repository class: its key name and, when it has a body,
the body's source text. -/
structure RepoMethod where
  name : String
  bodyText : Option String
deriving Repr, DecidableEq

/-- A class or interface declaration as this rule reads it: node type,
identifier name, the length of the implements clause list (absent clause
and empty list are both zero, as the source treats them alike), and its
MethodDefinition members. -/
structure RepoClassNode where
  ntype : String
  name : String
  implementsCount : Nat
  methods : List RepoMethod
deriving Repr, DecidableEq

/-- The context.report sites of the repository-architecture rule, one
constructor per message. -/
inductive RepoDiag where
  | interfacePlacement
  | interfaceNaming
  | implPlacement
  | businessLogicMethod (methodName : String)
  | dbSpecificMethod (methodName : String)
  | noImplementsClause
  | complexLogicImpl
deriving Repr, DecidableEq

/-- isRepositoryInterface(node) (repo rule lines 52-55). -/
def isRepositoryInterfaceN (n : RepoClassNode) : Bool :=
  n.ntype == "TSInterfaceDeclaration" && includesSub n.name "Repository"

/-- isRepositoryClass(node) (repo rule lines 57-60). -/
def isRepositoryClassN (n : RepoClassNode) : Bool :=
  n.ntype == "ClassDeclaration" && includesSub n.name "Repository"

/-- checkNamingConvention(node) (repo rule lines 62-92): interfaces must
sit under /domain/ or /core/ and be named I...Repository; repository
classes must sit under /infrastructure/ or /data/. -/
def checkNamingConvention (fileName : String) (n : RepoClassNode) : List RepoDiag :=
  (if isRepositoryInterfaceN n then
    (if !(includesSub fileName "/domain/") && !(includesSub fileName "/core/") then
      [.interfacePlacement] else [])
    ++ (if !(jsStartsWith n.name "I") || !(jsEndsWith n.name "Repository") then
      [.interfaceNaming] else [])
   else [])
  ++ (if isRepositoryClassN n then
    (if !(includesSub fileName "/infrastructure/") && !(includesSub fileName "/data/") then
      [.implPlacement] else [])
   else [])

/-- The keyword lists of checkMethodSignatures (repo rule lines 99, 108). -/
def businessLogicKeywords : List String := ["validate", "calculate", "process", "transform"]

/-- Storage-technology keywords of checkMethodSignatures. -/
def dbSpecificKeywords : List String := ["sql", "mongo", "redis", "query", "execute"]

/-- checkMethodSignatures(node) (repo rule lines 94-116) on a
MethodDefinition's key name. -/
def checkMethodSignatures (methodName : String) : List RepoDiag :=
  (if businessLogicKeywords.any (fun k => includesSub (toLowerStr methodName) k) then
    [.businessLogicMethod methodName] else [])
  ++ (if dbSpecificKeywords.any (fun k => includesSub (toLowerStr methodName) k) then
    [.dbSpecificMethod methodName] else [])

/-- Characters strictly before the first closing parenthesis, or none if
there is no closing parenthesis. -/
def takeUntilRParen : List Char → Option (List Char)
  | [] => none
  | c :: cs =>
    if c = ')' then some []
    else (takeUntilRParen cs).map (fun r => c :: r)

/-- Does a parenthesis-free segment contain "&&" followed later by a
pipe character — the [^)]*&&[^)]*\|[^)]* core of the pattern. -/
def complexSegTest : List Char → Bool
  | [] => false
  | c :: cs =>
    (charsPrefix ['&', '&'] (c :: cs) && (cs.drop 1).contains '|') ||
    complexSegTest cs

/-- After "if": skip whitespace, require an opening parenthesis, and test
the segment up to the first closing parenthesis. -/
def complexAfterIf : List Char → Bool
  | [] => false
  | c :: cs =>
    if c.isWhitespace then complexAfterIf cs
    else if c = '(' then
      match takeUntilRParen cs with
      | none => false
      | some seg => complexSegTest seg
    else false

/-- Scan for a match of the complex-conditional pattern at any position. -/
def complexScan : List Char → Bool
  | [] => false
  | c :: cs =>
    (match c :: cs with
     | 'i' :: 'f' :: rest => complexAfterIf rest
     | _ => false) ||
    complexScan cs

/-- The /if\s*\([^)]*&&[^)]*\|[^)]*\)/ test of
checkRepositoryImplementation (repo rule lines 200-201): some "if",
optional whitespace, an opening parenthesis, then — before the first
closing parenthesis — an "&&" followed by a pipe, and a closing
parenthesis exists. -/
def complexLogicTest (text : String) : Bool :=
  complexScan text.toList

/-- checkRepositoryImplementation(node) (repo rule lines 176-209): require
an implements clause and check every MethodDefinition's name and body. -/
def checkRepositoryImplementation (n : RepoClassNode) : List RepoDiag :=
  if !(isRepositoryClassN n) then []
  else
    (if n.implementsCount = 0 then [.noImplementsClause] else [])
    ++ n.methods.flatMap (fun m =>
      checkMethodSignatures m.name ++
      (match m.bodyText with
       | some t => if complexLogicTest t then [.complexLogicImpl] else []
       | none => []))

/-- The ClassDeclaration handler (repo rule lines 219-224): repository
classes get the naming-convention and implementation checks. -/
def classDeclarationHandler (fileName : String) (n : RepoClassNode) : List RepoDiag :=
  if isRepositoryClassN n then
    checkNamingConvention fileName n ++ checkRepositoryImplementation n
  else []

/-- Discriminator: the directory-placement diagnostic for repository
implementations. -/
def isDirPlacementDiag : RepoDiag → Bool
  | .implPlacement => true
  | _ => false

end RepositoryArchitecture

section RepositoryArchitectureTheorems

/-- Method-signature diagnostics are never the placement diagnostic. -/
theorem countP_dirPlacement_checkMethodSignatures (m : String) :
    (checkMethodSignatures m).countP (fun d => isDirPlacementDiag d) = 0 := by
  simp only [checkMethodSignatures, List.countP_append]
  split_ifs <;> simp [isDirPlacementDiag]

/-- The per-method loop of the implementation check never emits the
placement diagnostic. -/
theorem countP_dirPlacement_methodLoop (ms : List RepoMethod) :
    (ms.flatMap (fun m =>
      checkMethodSignatures m.name ++
      (match m.bodyText with
       | some t => if complexLogicTest t then [RepoDiag.complexLogicImpl] else []
       | none => []))).countP (fun d => isDirPlacementDiag d) = 0 := by
  induction ms with
  | nil => rfl
  | cons hd tl ih =>
    simp only [List.flatMap_cons, List.countP_append, ih,
      countP_dirPlacement_checkMethodSignatures]
    rcases hd.bodyText with _ | t <;> simp [isDirPlacementDiag]

/-- The implementation checks never emit the placement diagnostic. -/
theorem countP_dirPlacement_checkRepositoryImplementation (n : RepoClassNode) :
    (checkRepositoryImplementation n).countP (fun d => isDirPlacementDiag d) = 0 := by
  simp only [checkRepositoryImplementation]
  split_ifs with h1 h2
  · rfl
  · simp only [List.countP_append, countP_dirPlacement_methodLoop]
    simp [isDirPlacementDiag]
  · simp only [List.countP_append, countP_dirPlacement_methodLoop]
    simp [isDirPlacementDiag]

/-- Claim C9: a ClassDeclaration whose name contains "Repository" gets
exactly one directory-placement diagnostic from the rule's ClassDeclaration
handler when its file path contains neither "/infrastructure/" nor
"/data/", and none when the path contains either — independently of its
implements clause and methods. -/
theorem repo_dirPlacement_count
    (fileName name : String) (implementsCount : Nat) (methods : List RepoMethod)
    (hname : includesSub name "Repository" = true) :
    (classDeclarationHandler fileName
        ⟨"ClassDeclaration", name, implementsCount, methods⟩).countP
      (fun d => isDirPlacementDiag d) =
    (if includesSub fileName "/infrastructure/" || includesSub fileName "/data/"
     then 0 else 1) := by
  have hcls : isRepositoryClassN ⟨"ClassDeclaration", name, implementsCount, methods⟩ = true := by
    simp [isRepositoryClassN, hname]
  have hint : isRepositoryInterfaceN ⟨"ClassDeclaration", name, implementsCount, methods⟩ = false := by
    simp [isRepositoryInterfaceN]
  simp only [classDeclarationHandler, hcls, if_true, List.countP_append,
    checkNamingConvention, hint, countP_dirPlacement_checkRepositoryImplementation,
    Bool.false_eq_true, if_false, List.nil_append]
  split_ifs with h1 h2 <;> simp_all [isDirPlacementDiag]

/-- Witness for C9: UserRepositoryImpl declared in a path containing
neither substring yields exactly one directory-placement diagnostic. -/
theorem repo_dirPlacement_count_witness :
    (classDeclarationHandler "src/repositories/user.js"
        ⟨"ClassDeclaration", "UserRepositoryImpl", 0, []⟩).countP
      (fun d => isDirPlacementDiag d) = 1 :=
  (repo_dirPlacement_count "src/repositories/user.js" "UserRepositoryImpl" 0 []
    (by decide)).trans (by decide)

end RepositoryArchitectureTheorems

end LintModel
